import Mathlib

/-!
Verification of the memory-mcp server (`memory_mcp/server.py`): a SQLite-backed
record store (`DatabaseManager`) under five tool functions (`remember`,
`get_memory`, `list_memories`, `update_memory`, `delete_memory`) and the
dispatcher `handle_call_tool`.

The embedding is a pure state-passing translation: the SQLite table is a list
of rows in rowid order; every `DatabaseManager` method takes and returns the
table state (a `SELECT` returns it unchanged, mutations commit a new state).
Timestamps (`datetime.now().isoformat()`) are passed in as an explicit `now`
string. The schema declares `id INTEGER PRIMARY KEY` without `AUTOINCREMENT`,
so an `INSERT` that omits `id` assigns rowid `max(existing rowids) + 1`
(`1` on an empty table) — the documented SQLite rule for rowid tables.
-/

namespace MemoryMcp

/-- One row of the `memories` table:
`id INTEGER PRIMARY KEY, title TEXT, content TEXT, created_at, updated_at`. -/
structure MemoryRecord where
  id : Int
  title : String
  content : String
  created_at : String
  updated_at : String
deriving DecidableEq

/-- The persistent state: the `memories` table, rows kept in rowid order. -/
structure DB where
  rows : List MemoryRecord
deriving DecidableEq

/-- The largest rowid present in the table, `0` when empty (every stored id is
positive, so the fold base `0` matches SQLite's empty-table case giving `1`). -/
def maxRowid (rows : List MemoryRecord) : Int :=
  rows.foldr (fun r m => max r.id m) 0

namespace DatabaseManager

/-- `DatabaseManager.add_memory`: `INSERT INTO memories (title, content,
created_at, updated_at) VALUES (?, ?, ?, ?)` with `created_at = updated_at =
now`; returns `cursor.lastrowid`, the freshly assigned rowid. -/
def add_memory (db : DB) (title content now : String) : Int × DB :=
  let newId := maxRowid db.rows + 1
  (newId, ⟨db.rows ++ [⟨newId, title, content, now, now⟩]⟩)

/-- `DatabaseManager.get_memory_by_id`: `SELECT ... WHERE id = ?` then
`fetchone()`; the first matching row in rowid order, `None` if no match.
The `SELECT` leaves the table unchanged. -/
def get_memory_by_id (db : DB) (memory_id : Int) : Option MemoryRecord × DB :=
  (db.rows.find? (fun r => r.id = memory_id), db)

/-- `DatabaseManager.get_memory_by_title`: `SELECT ... WHERE title = ?` then
`fetchone()`; the first matching row in rowid order, `None` if no match. -/
def get_memory_by_title (db : DB) (title : String) : Option MemoryRecord × DB :=
  (db.rows.find? (fun r => r.title = title), db)

/-- `DatabaseManager.list_memories`: `SELECT id, title FROM memories`, one
`{id, title}` projection per row, in rowid order. -/
def list_memories (db : DB) : List (Int × String) × DB :=
  (db.rows.map (fun r => (r.id, r.title)), db)

/-- The effect on one row of the `UPDATE memories SET <supplied fields>,
updated_at = ? WHERE id = ?` statement that `update_memory` builds: a row
matching the id gets each supplied field and the new `updated_at`; other rows
are untouched. -/
def applyPatch (memory_id : Int) (title content : Option String) (now : String)
    (r : MemoryRecord) : MemoryRecord :=
  if r.id = memory_id then
    { r with
      title := title.getD r.title
      content := content.getD r.content
      updated_at := now }
  else r

/-- `DatabaseManager.update_memory`: first `get_memory_by_id`; `False` when the
record does not exist; `True` with no statement executed when neither field is
supplied (`update_items` stays empty); otherwise executes the built `UPDATE`
(which always sets `updated_at`) and returns `True`. -/
def update_memory (db : DB) (memory_id : Int)
    (title content : Option String) (now : String) : Bool × DB :=
  match (get_memory_by_id db memory_id).1 with
  | none => (false, db)
  | some _ =>
    if title.isNone && content.isNone then (true, db)
    else (true, ⟨db.rows.map (applyPatch memory_id title content now)⟩)

/-- `DatabaseManager.delete_memory`: first `get_memory_by_id`; `False` when the
record does not exist; otherwise `DELETE FROM memories WHERE id = ?` and
`True`. -/
def delete_memory (db : DB) (memory_id : Int) : Bool × DB :=
  match (get_memory_by_id db memory_id).1 with
  | none => (false, db)
  | some _ => (true, ⟨db.rows.filter (fun r => !(r.id = memory_id))⟩)

end DatabaseManager

/-- `remember`: stores a memory and reports the assigned id. (The `except`
wrapper only fires on storage-engine failures, absent from this pure model.) -/
def remember (db : DB) (title content now : String) : String × DB :=
  let p := DatabaseManager.add_memory db title content now
  ("Memory stored successfully with ID: " ++ toString p.1 ++ ".", p.2)

/-- The shared tail of `get_memory`: format the found record, or the
not-found message. -/
def renderMemory : Option MemoryRecord → String
  | some m => "Title: " ++ m.title ++ "\n\nContent: " ++ m.content
  | none => "Memory not found."

/-- `get_memory` (module-level function): lookup by id when `memory_id` is
supplied, else by title when `title` is supplied, else the validation-error
text. -/
def get_memory (db : DB) (memory_id : Option Int) (title : Option String) :
    String × DB :=
  match memory_id, title with
  | some mid, _ =>
    let p := DatabaseManager.get_memory_by_id db mid
    (renderMemory p.1, p.2)
  | none, some t =>
    let p := DatabaseManager.get_memory_by_title db t
    (renderMemory p.1, p.2)
  | none, none => ("Error: Please provide either a memory_id or title.", db)

/-- `list_memories` (module-level function): "No memories stored yet." when
the table is empty, else a header followed by one "ID: {id} - {title}" line
per record, accumulated left to right exactly as the Python loop does. -/
def list_memories (db : DB) : String × DB :=
  let p := DatabaseManager.list_memories db
  if p.1.isEmpty then ("No memories stored yet.", p.2)
  else
    (p.1.foldl
      (fun result m => result ++ ("ID: " ++ toString m.1 ++ " - " ++ m.2 ++ "\n"))
      ("Stored Memories:\n\n"), p.2)

/-- `update_memory` (module-level function): validation error when neither
field is supplied; otherwise the store call, rendered as success or
not-found text. -/
def update_memory (db : DB) (memory_id : Int)
    (title content : Option String) (now : String) : String × DB :=
  if title.isNone && content.isNone then
    ("Error: Please provide at least one field to update (title or content).", db)
  else
    let p := DatabaseManager.update_memory db memory_id title content now
    if p.1 then ("Memory " ++ toString memory_id ++ " updated successfully.", p.2)
    else ("Memory with ID " ++ toString memory_id ++ " not found.", p.2)

/-- `delete_memory` (module-level function): the store call rendered as
success or not-found text. -/
def delete_memory (db : DB) (memory_id : Int) : String × DB :=
  let p := DatabaseManager.delete_memory db memory_id
  if p.1 then ("Memory " ++ toString memory_id ++ " deleted successfully.", p.2)
  else ("Memory with ID " ++ toString memory_id ++ " not found.", p.2)

/-- The argument mapping of a tool call, as the dispatcher reads it: the three
keys it ever looks up (`arguments.get(...)` / `in arguments`), plus the count
of any other keys present (`extra`), which only matters through Python's
truthiness test `not arguments` (false exactly when the dict has no keys). -/
structure Args where
  memory_id : Option Int
  title : Option String
  content : Option String
  extra : Nat
deriving DecidableEq

/-- Python's `not arguments` on a present dict: true exactly when it has no
keys at all. -/
def Args.isEmptyMap (a : Args) : Bool :=
  a.memory_id.isNone && a.title.isNone && a.content.isNone && (a.extra == 0)

/-- `handle_call_tool`: the dispatcher. `Except.error` models a raised
`ValueError` (a protocol-level error: the transport sets the error flag);
`Except.ok` models a normal single-text-content response. -/
def handle_call_tool (name : String) (arguments : Option Args) (db : DB)
    (now : String) : Except String (String × DB) :=
  if name = "remember" then
    match arguments with
    | some args =>
      match args.title, args.content with
      | some t, some c => Except.ok (remember db t c now)
      | _, _ => Except.error ("Missing title or content arguments")
    | none => Except.error ("Missing title or content arguments")
  else if name = "get_memory" then
    match arguments with
    | some args =>
      if args.isEmptyMap then Except.error ("Missing arguments")
      else Except.ok (get_memory db args.memory_id args.title)
    | none => Except.error ("Missing arguments")
  else if name = "list_memories" then
    Except.ok (list_memories db)
  else if name = "update_memory" then
    match arguments with
    | some args =>
      match args.memory_id with
      | some mid => Except.ok (update_memory db mid args.title args.content now)
      | none => Except.error ("Missing memory_id argument")
    | none => Except.error ("Missing memory_id argument")
  else if name = "delete_memory" then
    match arguments with
    | some args =>
      match args.memory_id with
      | some mid => Except.ok (delete_memory db mid)
      | none => Except.error ("Missing memory_id argument")
    | none => Except.error ("Missing memory_id argument")
  else
    Except.error ("Unknown tool: " ++ name)

/-- Whether the dispatcher raised (the transport would flag the call as a
protocol error) rather than answering with a text response. -/
def isProtocolError (e : Except String (String × DB)) : Bool :=
  match e with
  | Except.error _ => true
  | Except.ok _ => false

/-- One store mutation, for reasoning about operation sequences. -/
inductive StoreOp where
  | addOp (title content now : String) : StoreOp
  | deleteOp (memory_id : Int) : StoreOp
deriving DecidableEq

/-- The ids handed out by `add_memory`, in order, over a sequence of store
mutations starting from `db`. -/
def assignedIds (db : DB) : List StoreOp → List Int
  | [] => []
  | StoreOp.addOp t c n :: rest =>
    (DatabaseManager.add_memory db t c n).1 ::
      assignedIds (DatabaseManager.add_memory db t c n).2 rest
  | StoreOp.deleteOp i :: rest =>
    assignedIds (DatabaseManager.delete_memory db i).2 rest

/-- Whether a sequence of store mutations contains no deletion. -/
def addsOnly (ops : List StoreOp) : Bool :=
  ops.all (fun op => match op with
    | StoreOp.addOp _ _ _ => true
    | StoreOp.deleteOp _ => false)

/-- The key lookups the dispatcher performs, lifted over an absent mapping:
`arguments.get("title")` is `None` when the mapping itself is absent. -/
def argTitle : Option Args → Option String
  | none => none
  | some a => a.title

/-- `arguments.get("content")`, over a possibly absent mapping. -/
def argContent : Option Args → Option String
  | none => none
  | some a => a.content

/-- `arguments.get("memory_id")`, over a possibly absent mapping. -/
def argMemoryId : Option Args → Option Int
  | none => none
  | some a => a.memory_id

/-- Python's `not arguments` as the dispatcher evaluates it: the mapping is
absent, or present with no keys. -/
def noArguments : Option Args → Bool
  | none => true
  | some a => a.isEmptyMap

/-- The malformed-invocation condition exactly as the claim words it:
`remember` missing `title` or `content`; `update_memory` or `delete_memory`
missing `memory_id`; or an operation name outside the five supported ones. -/
abbrev malformedClaimed (name : String) (arguments : Option Args) : Prop :=
  (name = "remember" ∧ (argTitle arguments = none ∨ argContent arguments = none)) ∨
  ((name = "update_memory" ∨ name = "delete_memory") ∧ argMemoryId arguments = none) ∨
  (name ≠ "remember" ∧ name ≠ "get_memory" ∧ name ≠ "list_memories" ∧
    name ≠ "update_memory" ∧ name ≠ "delete_memory")

/-- The condition under which the code actually raises: the claimed one, plus
`get_memory` invoked with an absent or present-but-empty mapping. -/
abbrev malformedActual (name : String) (arguments : Option Args) : Prop :=
  malformedClaimed name arguments ∨
  (name = "get_memory" ∧ noArguments arguments = true)

/-- The empty store. -/
def emptyDB : DB := ⟨[]⟩

/-- A concrete record used to instantiate theorems with hypotheses. -/
def sampleRecord : MemoryRecord := ⟨1, "T", "C", "t0", "t0"⟩

/-- A one-record store. -/
def sampleDB : DB := ⟨[sampleRecord]⟩

/-- The run refuting C2: two inserts, delete of the record with the greatest
id, then another insert — SQLite hands the freed rowid `2` out again. -/
def c2ops : List StoreOp :=
  [StoreOp.addOp ("a") ("x") ("t0"), StoreOp.addOp ("b") ("y") ("t1"),
   StoreOp.deleteOp 2, StoreOp.addOp ("c") ("z") ("t2")]

deriving instance DecidableEq for Except

/-! Helper lemmas shared by the claim theorems. -/

theorem mem_le_maxRowid (r : MemoryRecord) :
    ∀ rows : List MemoryRecord, r ∈ rows → r.id ≤ maxRowid rows := by
  intro rows
  induction rows with
  | nil => intro h; cases h
  | cons x xs ih =>
    intro h
    rcases List.mem_cons.mp h with h1 | h2
    · rw [h1]; exact le_max_left x.id (maxRowid xs)
    · exact le_trans (ih h2) (le_max_right x.id (maxRowid xs))

theorem maxRowid_append (rows : List MemoryRecord) (r : MemoryRecord) :
    maxRowid (rows ++ [r]) = max (maxRowid rows) r.id := by
  induction rows with
  | nil => show max r.id 0 = max 0 r.id; exact max_comm r.id 0
  | cons x xs ih =>
    show max x.id (maxRowid (xs ++ [r])) = max (max x.id (maxRowid xs)) r.id
    rw [ih, max_assoc]

/-- The id assigned by `add_memory` is strictly greater than the id of every
record already in the table. -/
theorem add_memory_fresh (db : DB) (t c n : String) :
    ∀ r ∈ db.rows, r.id < (DatabaseManager.add_memory db t c n).1 := by
  intro r hr
  have h := mem_le_maxRowid r db.rows hr
  have h2 : (DatabaseManager.add_memory db t c n).1 = maxRowid db.rows + 1 := rfl
  omega

/-! Claim theorems. -/

/-- C10: the read operations `get_memory_by_id`, `get_memory_by_title` and
`list_memories` never modify stored state: on every table state and every
input they return the table exactly as it was. (In this state-passing
embedding each of their bodies is a single `SELECT`, which passes the state
through untouched.) -/
theorem c10_reads_preserve_state (db : DB) (i : Int) (t : String) :
    (DatabaseManager.get_memory_by_id db i).2 = db ∧
    (DatabaseManager.get_memory_by_title db t).2 = db ∧
    (DatabaseManager.list_memories db).2 = db :=
  ⟨rfl, rfl, rfl⟩

/-- C5: for every pair of texts, `add_memory` followed by `get_memory_by_id`
on the id it returned yields a record whose title and content equal the
inputs and whose `created_at` equals its `updated_at` (both are the single
`now` taken at insert time). -/
theorem c5_add_then_getById (db : DB) (title content now : String) :
    (DatabaseManager.get_memory_by_id
        (DatabaseManager.add_memory db title content now).2
        (DatabaseManager.add_memory db title content now).1).1 =
      some ⟨(DatabaseManager.add_memory db title content now).1,
        title, content, now, now⟩ := by
  show ((db.rows ++ [(⟨maxRowid db.rows + 1, title, content, now, now⟩ : MemoryRecord)]).find?
      (fun r : MemoryRecord => r.id = maxRowid db.rows + 1)) = some _
  rw [List.find?_append]
  have h1 : db.rows.find? (fun r => decide (r.id = maxRowid db.rows + 1)) = none := by
    rw [List.find?_eq_none]
    intro x hx
    have := mem_le_maxRowid x db.rows hx
    simp only [decide_eq_true_eq]
    omega
  rw [h1]
  simp only [List.find?, Option.none_or, decide_eq_true_eq, if_pos rfl]
  exact rfl

/-- C6: after `delete_memory db i`, a `get_memory_by_id` on `i` yields none;
and deleting an id with no record (in particular a second delete of the same
id, any number of times) returns `false` and leaves the table unchanged. -/
theorem c6_delete_then_get (db : DB) (i : Int) :
    (DatabaseManager.get_memory_by_id (DatabaseManager.delete_memory db i).2 i).1 = none ∧
    ((DatabaseManager.get_memory_by_id db i).1 = none →
      DatabaseManager.delete_memory db i = (false, db)) := by
  constructor
  · cases h : (DatabaseManager.get_memory_by_id db i).1 with
    | none =>
      simp only [DatabaseManager.delete_memory, h]
    | some m =>
      simp only [DatabaseManager.delete_memory, h]
      show (db.rows.filter (fun r => !(decide (r.id = i)))).find?
          (fun r => decide (r.id = i)) = none
      rw [List.find?_eq_none]
      intro x hx
      have := List.of_mem_filter hx
      simp only [Bool.not_eq_true'] at this
      simp [this]
  · intro h
    simp only [DatabaseManager.delete_memory, h]

/-- C6 witness: on the empty store, deleting id 1 leaves nothing to find and
returns `(false, unchanged)`. -/
theorem c6_delete_then_get_witness :
    (DatabaseManager.get_memory_by_id (DatabaseManager.delete_memory emptyDB 1).2 1).1 = none ∧
    DatabaseManager.delete_memory emptyDB 1 = (false, emptyDB) :=
  ⟨(c6_delete_then_get emptyDB 1).1, (c6_delete_then_get emptyDB 1).2 (by decide)⟩

/-- C4: `update_memory` returns `false` exactly when no record with the id
exists, and then leaves the table unchanged (no row created); when the record
exists but neither field is supplied it returns `true` while leaving the
whole state byte-identical, `updated_at` included. -/
theorem c4_update_miss_and_noop (db : DB) (i : Int) (t c : Option String) (now : String) :
    ((DatabaseManager.update_memory db i t c now).1 = false ↔
      (DatabaseManager.get_memory_by_id db i).1 = none) ∧
    ((DatabaseManager.get_memory_by_id db i).1 = none →
      DatabaseManager.update_memory db i t c now = (false, db)) ∧
    ((DatabaseManager.get_memory_by_id db i).1 ≠ none →
      DatabaseManager.update_memory db i none none now = (true, db)) := by
  refine ⟨?_, ?_, ?_⟩
  · cases h : (DatabaseManager.get_memory_by_id db i).1 with
    | none => simp [DatabaseManager.update_memory, h]
    | some m =>
      simp only [DatabaseManager.update_memory, h]
      constructor
      · intro hb
        by_cases hn : t.isNone && c.isNone
        · rw [if_pos hn] at hb; cases hb
        · rw [if_neg hn] at hb; cases hb
      · intro hb; cases hb
  · intro h
    simp [DatabaseManager.update_memory, h]
  · intro h
    cases hh : (DatabaseManager.get_memory_by_id db i).1 with
    | none => exact absurd hh h
    | some m => simp [DatabaseManager.update_memory, hh]

/-- C4 witness: updating a missing id on the empty store fails without
creating a row; the fieldless update of an existing record is a true no-op. -/
theorem c4_update_miss_and_noop_witness :
    DatabaseManager.update_memory emptyDB 1 (some ("x")) none ("t1") = (false, emptyDB) ∧
    DatabaseManager.update_memory sampleDB 1 none none ("t1") = (true, sampleDB) :=
  ⟨(c4_update_miss_and_noop emptyDB 1 (some ("x")) none ("t1")).2.1 (by decide),
   (c4_update_miss_and_noop sampleDB 1 none none ("t1")).2.2 (by decide)⟩

/-- C9: when `get_memory` receives both `memory_id` and `title`, the lookup is
by `memory_id` only — the call behaves exactly as with no title — and when no
record has that id the response is "Memory not found." even if some stored
record carries the supplied title. -/
theorem c9_id_takes_precedence (db : DB) (mid : Int) (t : String)
    (h : (DatabaseManager.get_memory_by_id db mid).1 = none) :
    get_memory db (some mid) (some t) = get_memory db (some mid) none ∧
    (get_memory db (some mid) (some t)).1 = "Memory not found." := by
  constructor
  · rfl
  · simp [get_memory, h, renderMemory]

theorem applyPatch_id (i : Int) (t c : Option String) (n : String) (r : MemoryRecord) :
    (DatabaseManager.applyPatch i t c n r).id = r.id := by
  unfold DatabaseManager.applyPatch
  split <;> rfl

theorem applyPatch_of_ne (i : Int) (t c : Option String) (n : String) (r : MemoryRecord)
    (h : r.id ≠ i) : DatabaseManager.applyPatch i t c n r = r := by
  unfold DatabaseManager.applyPatch
  rw [if_neg h]

theorem find?_map_applyPatch (i : Int) (t c : Option String) (n : String)
    (rows : List MemoryRecord) :
    (rows.map (DatabaseManager.applyPatch i t c n)).find?
        (fun r => r.id = i) =
      (rows.find? (fun r => r.id = i)).map (DatabaseManager.applyPatch i t c n) := by
  rw [List.find?_map]
  have hp : ((fun r : MemoryRecord => decide (r.id = i)) ∘ DatabaseManager.applyPatch i t c n) =
      (fun r : MemoryRecord => decide (r.id = i)) := by
    funext r
    simp [Function.comp, applyPatch_id]
  rw [hp]

theorem mem_map_applyPatch_of_ne (i : Int) (t c : Option String) (n : String)
    (rows : List MemoryRecord) (r : MemoryRecord) (hne : r.id ≠ i) :
    r ∈ rows → r ∈ rows.map (DatabaseManager.applyPatch i t c n) := by
  intro hr
  have := List.mem_map_of_mem (DatabaseManager.applyPatch i t c n) hr
  rwa [applyPatch_of_ne i t c n r hne] at this

/-- C3: for an existing record, a title-only update changes only that record's
title and `updated_at` (its content and `created_at` survive in the patched
record), and every other record of the table survives unchanged; a
content-only update symmetrically changes only content and `updated_at`. -/
theorem c3_update_frame (db : DB) (i : Int) (m : MemoryRecord) (T C now : String)
    (h : (DatabaseManager.get_memory_by_id db i).1 = some m) :
    ((DatabaseManager.get_memory_by_id
        (DatabaseManager.update_memory db i (some T) none now).2 i).1 =
      some { m with title := T, updated_at := now } ∧
     (DatabaseManager.update_memory db i (some T) none now).2.rows.length =
       db.rows.length ∧
     ∀ r ∈ db.rows, r.id ≠ i →
       r ∈ (DatabaseManager.update_memory db i (some T) none now).2.rows) ∧
    ((DatabaseManager.get_memory_by_id
        (DatabaseManager.update_memory db i none (some C) now).2 i).1 =
      some { m with content := C, updated_at := now } ∧
     (DatabaseManager.update_memory db i none (some C) now).2.rows.length =
       db.rows.length ∧
     ∀ r ∈ db.rows, r.id ≠ i →
       r ∈ (DatabaseManager.update_memory db i none (some C) now).2.rows) := by
  have hmi : m.id = i := by
    have := List.find?_some h
    simpa using this
  constructor
  · simp only [DatabaseManager.update_memory, h, Option.isNone_some, Option.isNone_none,
      Bool.false_and, Bool.and_false, if_neg Bool.false_ne_true]
    refine ⟨?_, ?_, ?_⟩
    · show ((db.rows.map (DatabaseManager.applyPatch i (some T) none now)).find?
          (fun r => r.id = i)) = _
      rw [find?_map_applyPatch]
      show ((DatabaseManager.get_memory_by_id db i).1.map
          (DatabaseManager.applyPatch i (some T) none now)) = _
      rw [h]
      show some (DatabaseManager.applyPatch i (some T) none now m) = _
      unfold DatabaseManager.applyPatch
      rw [if_pos hmi]
      rfl
    · exact List.length_map db.rows _
    · intro r hr hne
      exact mem_map_applyPatch_of_ne i (some T) none now db.rows r hne hr
  · simp only [DatabaseManager.update_memory, h, Option.isNone_some, Option.isNone_none,
      Bool.false_and, Bool.and_false, if_neg Bool.false_ne_true]
    refine ⟨?_, ?_, ?_⟩
    · show ((db.rows.map (DatabaseManager.applyPatch i none (some C) now)).find?
          (fun r => r.id = i)) = _
      rw [find?_map_applyPatch]
      show ((DatabaseManager.get_memory_by_id db i).1.map
          (DatabaseManager.applyPatch i none (some C) now)) = _
      rw [h]
      show some (DatabaseManager.applyPatch i none (some C) now m) = _
      unfold DatabaseManager.applyPatch
      rw [if_pos hmi]
      rfl
    · exact List.length_map db.rows _
    · intro r hr hne
      exact mem_map_applyPatch_of_ne i none (some C) now db.rows r hne hr

/-- C3 witness: in the one-record store, a title-only update of record 1
yields its patched form with content and `created_at` intact. -/
theorem c3_update_frame_witness :
    (DatabaseManager.get_memory_by_id
        (DatabaseManager.update_memory sampleDB 1 (some ("U")) none ("t1")).2 1).1 =
      some { sampleRecord with title := ("U"), updated_at := ("t1") } :=
  (c3_update_frame sampleDB 1 sampleRecord ("U") ("W") ("t1") (by decide)).1.1

theorem foldl_append_string {α : Type} (f : α → String) (l : List α) (A : String) :
    l.foldl (fun acc x => acc ++ f x) A =
      A ++ (l.map f).foldr (fun a b => a ++ b) "" := by
  induction l generalizing A with
  | nil => simp
  | cons x xs ih =>
    simp only [List.foldl_cons, List.map_cons, List.foldr_cons]
    rw [ih, String.append_assoc]

/-- C8: `list_memories` on the store yields exactly one `{id, title}`
projection per stored record, in order — the k-th projection is the k-th
record's id and title, and the two lists have the same length — with the
empty table giving the empty sequence, not an error; and the tool renders
this as "No memories stored yet." when empty, else as the header
"Stored Memories:\n\n" followed by one "ID: {id} - {title}" line per
record. -/
theorem c8_list_and_rendering (db : DB) :
    (DatabaseManager.list_memories db).1.length = db.rows.length ∧
    (∀ k : Nat, (DatabaseManager.list_memories db).1[k]? =
      (db.rows[k]?).map (fun r => (r.id, r.title))) ∧
    (list_memories db).1 =
      (if db.rows.isEmpty then ("No memories stored yet.")
       else ("Stored Memories:\n\n") ++
         (db.rows.map (fun r => "ID: " ++ toString r.id ++ " - " ++ r.title ++ "\n")).foldr
           (fun a b => a ++ b) "") := by
  refine ⟨List.length_map db.rows _, ?_, ?_⟩
  · intro k
    exact List.getElem?_map ..
  · obtain ⟨rows⟩ := db
    cases rows with
    | nil => rfl
    | cons r rest =>
      have hL : (list_memories ⟨r :: rest⟩).1 =
          ((r :: rest).map (fun rr => (rr.id, rr.title))).foldl
            (fun result m => result ++ ("ID: " ++ toString m.1 ++ " - " ++ m.2 ++ "\n"))
            ("Stored Memories:\n\n") := rfl
      have hmaps : ((r :: rest).map (fun rr => (rr.id, rr.title))).map
          (fun m : Int × String => "ID: " ++ toString m.1 ++ " - " ++ m.2 ++ "\n") =
          (r :: rest).map
            (fun rr => "ID: " ++ toString rr.id ++ " - " ++ rr.title ++ "\n") := by
        rw [List.map_map]
        rfl
      rw [hL, foldl_append_string, hmaps]
      rfl

/-- C9 witness: the store holds a record titled "T", yet asking for
`memory_id = 99` with `title = "T"` reports "Memory not found.". -/
theorem c9_id_takes_precedence_witness :
    get_memory sampleDB (some 99) (some ("T")) = get_memory sampleDB (some 99) none ∧
    (get_memory sampleDB (some 99) (some ("T"))).1 = "Memory not found." :=
  c9_id_takes_precedence sampleDB 99 ("T") (by decide)

theorem maxRowid_add_memory (db : DB) (t c n : String) :
    maxRowid (DatabaseManager.add_memory db t c n).2.rows = maxRowid db.rows + 1 := by
  show maxRowid (db.rows ++ [(⟨maxRowid db.rows + 1, t, c, n, n⟩ : MemoryRecord)]) = _
  rw [maxRowid_append]
  show max (maxRowid db.rows) (maxRowid db.rows + 1) = maxRowid db.rows + 1
  exact max_eq_right (by omega)

theorem assignedIds_gt (ops : List StoreOp) :
    addsOnly ops = true →
      ∀ db : DB, ∀ j ∈ assignedIds db ops, maxRowid db.rows < j := by
  induction ops with
  | nil =>
    intro _ db j hj
    cases hj
  | cons op rest ih =>
    intro h db j hj
    rw [addsOnly, List.all_cons, Bool.and_eq_true] at h
    cases op with
    | deleteOp i => cases h.1
    | addOp t c n =>
      rcases List.mem_cons.mp hj with h1 | h2
      · have : (DatabaseManager.add_memory db t c n).1 = maxRowid db.rows + 1 := rfl
        omega
      · have hlt := ih h.2 (DatabaseManager.add_memory db t c n).2 j h2
        rw [maxRowid_add_memory] at hlt
        omega

/-- C2 counterexample: starting from the empty store, two inserts, a delete of
the record with the larger id, then a third insert makes `add` hand out the
ids `1, 2, 2` — the third assigned id is not greater than the previously
assigned `2`, and the deleted id `2` is assigned again. (The schema's
`INTEGER PRIMARY KEY` without `AUTOINCREMENT` reassigns `max rowid + 1`.) -/
theorem c2_counterexample :
    assignedIds emptyDB c2ops = [1, 2, 2] ∧
    ¬ List.Pairwise (fun a b => a < b) (assignedIds emptyDB c2ops) ∧
    ¬ List.Nodup (assignedIds emptyDB c2ops) := by
  refine ⟨by decide, ?_, ?_⟩ <;> decide

/-- C2 amended: every id assigned by `add_memory` is strictly greater than the
id of every record present in the store at that moment, and over any sequence
of store operations containing no delete the assigned ids are strictly
increasing (so never repeated); but deleting the record with the greatest id
frees that id for reassignment, as the counterexample shows. -/
theorem c2_fresh_ids (db : DB) (t c n : String) (ops : List StoreOp)
    (h : addsOnly ops = true) :
    (∀ r ∈ db.rows, r.id < (DatabaseManager.add_memory db t c n).1) ∧
    List.Pairwise (fun a b => a < b) (assignedIds db ops) := by
  refine ⟨add_memory_fresh db t c n, ?_⟩
  clear t c n
  induction ops generalizing db with
  | nil => exact List.Pairwise.nil
  | cons op rest ih =>
    rw [addsOnly, List.all_cons, Bool.and_eq_true] at h
    cases op with
    | deleteOp i => cases h.1
    | addOp t c n =>
      refine List.Pairwise.cons ?_ (ih (DatabaseManager.add_memory db t c n).2 h.2)
      intro j hj
      have hlt := assignedIds_gt rest h.2 (DatabaseManager.add_memory db t c n).2 j hj
      rw [maxRowid_add_memory] at hlt
      show (DatabaseManager.add_memory db t c n).1 < j
      have : (DatabaseManager.add_memory db t c n).1 = maxRowid db.rows + 1 := rfl
      omega

/-- C2 amended, witness: in the one-record store the next id exceeds the
stored record's id, and two deletion-free inserts get strictly increasing
ids. -/
theorem c2_fresh_ids_witness :
    sampleRecord.id < (DatabaseManager.add_memory sampleDB ("b") ("y") ("t1")).1 ∧
    List.Pairwise (fun a b => a < b)
      (assignedIds sampleDB
        [StoreOp.addOp ("b") ("y") ("t1"), StoreOp.addOp ("c") ("z") ("t2")]) :=
  ⟨(c2_fresh_ids sampleDB ("b") ("y") ("t1")
      [StoreOp.addOp ("b") ("y") ("t1"), StoreOp.addOp ("c") ("z") ("t2")]
      (by decide)).1 sampleRecord (by decide),
   (c2_fresh_ids sampleDB ("b") ("y") ("t1")
      [StoreOp.addOp ("b") ("y") ("t1"), StoreOp.addOp ("c") ("z") ("t2")]
      (by decide)).2⟩

/-- C1 counterexample: invoking the dispatcher with name "get_memory" and the
present-but-empty argument mapping does not return the claimed text response:
Python's `not arguments` is true for an empty dict, so the dispatcher raises
the protocol-level error "Missing arguments" instead. -/
theorem c1_counterexample :
    handle_call_tool ("get_memory") (some ⟨none, none, none, 0⟩) emptyDB ("t0") =
      Except.error ("Missing arguments") ∧
    handle_call_tool ("get_memory") (some ⟨none, none, none, 0⟩) emptyDB ("t0") ≠
      Except.ok ("Error: Please provide either a memory_id or title.", emptyDB) := by
  exact ⟨by decide, by decide⟩

/-- C1 amended: a "get_memory" invocation whose mapping is present and
non-empty yet supplies neither `memory_id` nor `title` returns the normal
text response "Error: Please provide either a memory_id or title." with the
store state passed through untouched and no Store call made (the response is
the same for every store state); but an absent mapping — and likewise the
present-but-empty mapping — raises the protocol-level error
"Missing arguments" instead. -/
theorem c1_get_memory_no_identifier (args : Args) (db : DB) (now : String)
    (hmid : args.memory_id = none) (hti : args.title = none)
    (hne : args.isEmptyMap = false) :
    handle_call_tool ("get_memory") (some args) db now =
      Except.ok ("Error: Please provide either a memory_id or title.", db) ∧
    handle_call_tool ("get_memory") none db now = Except.error ("Missing arguments") ∧
    handle_call_tool ("get_memory") (some ⟨none, none, none, 0⟩) db now =
      Except.error ("Missing arguments") := by
  refine ⟨?_, rfl, rfl⟩
  simp only [handle_call_tool, reduceIte, hne, Bool.false_eq_true, if_false, hmid, hti]
  rfl

/-- C1 amended, witness: the mapping holding only the irrelevant key
`content` is non-empty and supplies neither identifier, so the dispatcher
answers with the business-error text. -/
theorem c1_get_memory_no_identifier_witness :
    handle_call_tool ("get_memory") (some ⟨none, none, some ("q"), 0⟩) emptyDB ("t0") =
      Except.ok ("Error: Please provide either a memory_id or title.", emptyDB) ∧
    handle_call_tool ("get_memory") none emptyDB ("t0") =
      Except.error ("Missing arguments") ∧
    handle_call_tool ("get_memory") (some ⟨none, none, none, 0⟩) emptyDB ("t0") =
      Except.error ("Missing arguments") :=
  c1_get_memory_no_identifier ⟨none, none, some ("q"), 0⟩ emptyDB ("t0") rfl rfl rfl

/-- C7 counterexample: a "get_memory" invocation with an absent argument
mapping is flagged as a protocol error by the code, although it is none of
the malformed shapes the claim enumerates — so the claimed "exactly when"
equivalence fails. -/
theorem c7_counterexample :
    isProtocolError (handle_call_tool ("get_memory") none emptyDB ("t0")) = true ∧
    ¬ malformedClaimed ("get_memory") none := by
  exact ⟨rfl, by decide⟩

/-- C7 amended: the dispatcher signals a transport-level (protocol) error
exactly when the invocation is malformed as the claim enumerates — remember
missing title or content, update_memory or delete_memory missing memory_id,
or an unsupported operation name, the last with diagnostic
"Unknown tool: {name}" — or when get_memory is invoked with an absent or
present-but-empty argument mapping. -/
theorem c7_protocol_error_iff (name : String) (arguments : Option Args)
    (db : DB) (now : String) :
    (isProtocolError (handle_call_tool name arguments db now) = true ↔
      malformedActual name arguments) ∧
    ((name ≠ "remember" ∧ name ≠ "get_memory" ∧ name ≠ "list_memories" ∧
        name ≠ "update_memory" ∧ name ≠ "delete_memory") →
      handle_call_tool name arguments db now =
        Except.error ("Unknown tool: " ++ name)) := by
  by_cases h1 : name = "remember"
  · subst h1
    refine ⟨?_, fun hc => absurd rfl hc.1⟩
    rcases arguments with _ | args
    · simp [handle_call_tool, malformedActual, malformedClaimed, argTitle, argContent,
        noArguments, isProtocolError]
    · rcases ht : args.title with _ | t <;> rcases hc : args.content with _ | c <;>
        simp [handle_call_tool, malformedActual, malformedClaimed, argTitle, argContent,
          noArguments, isProtocolError, ht, hc]
  · by_cases h2 : name = "get_memory"
    · subst h2
      refine ⟨?_, fun hc => absurd rfl hc.2.1⟩
      rcases arguments with _ | args
      · simp [handle_call_tool, malformedActual, malformedClaimed, argTitle, argContent,
          argMemoryId, noArguments, isProtocolError]
      · by_cases he : args.isEmptyMap
        · simp [handle_call_tool, malformedActual, malformedClaimed, argTitle, argContent,
            argMemoryId, noArguments, isProtocolError, he]
        · simp [handle_call_tool, malformedActual, malformedClaimed, argTitle, argContent,
            argMemoryId, noArguments, isProtocolError, he]
    · by_cases h3 : name = "list_memories"
      · subst h3
        refine ⟨?_, fun hc => absurd rfl hc.2.2.1⟩
        simp [handle_call_tool, malformedActual, malformedClaimed, argTitle, argContent,
          argMemoryId, noArguments, isProtocolError]
      · by_cases h4 : name = "update_memory"
        · subst h4
          refine ⟨?_, fun hc => absurd rfl hc.2.2.2.1⟩
          rcases arguments with _ | args
          · simp [handle_call_tool, malformedActual, malformedClaimed, argTitle,
              argContent, argMemoryId, noArguments, isProtocolError]
          · rcases hm : args.memory_id with _ | mid <;>
              simp [handle_call_tool, malformedActual, malformedClaimed, argTitle,
                argContent, argMemoryId, noArguments, isProtocolError, hm]
        · by_cases h5 : name = "delete_memory"
          · subst h5
            refine ⟨?_, fun hc => absurd rfl hc.2.2.2.2⟩
            rcases arguments with _ | args
            · simp [handle_call_tool, malformedActual, malformedClaimed, argTitle,
                argContent, argMemoryId, noArguments, isProtocolError]
            · rcases hm : args.memory_id with _ | mid <;>
                simp [handle_call_tool, malformedActual, malformedClaimed, argTitle,
                  argContent, argMemoryId, noArguments, isProtocolError, hm]
          · constructor
            · simp [handle_call_tool, malformedActual, malformedClaimed,
                isProtocolError, h1, h2, h3, h4, h5]
            · intro _
              simp [handle_call_tool, h1, h2, h3, h4, h5]

/-- C7 amended, witness: the unsupported name "bogus_tool" is flagged as a
protocol error with the diagnostic "Unknown tool: bogus_tool". -/
theorem c7_protocol_error_iff_witness :
    isProtocolError
      (handle_call_tool ("bogus_tool") (some ⟨none, none, none, 0⟩) emptyDB ("t0")) = true ∧
    handle_call_tool ("bogus_tool") (some ⟨none, none, none, 0⟩) emptyDB ("t0") =
      Except.error ("Unknown tool: " ++ "bogus_tool") :=
  ⟨(c7_protocol_error_iff ("bogus_tool") (some ⟨none, none, none, 0⟩) emptyDB ("t0")).1.mpr
      (by decide),
   (c7_protocol_error_iff ("bogus_tool") (some ⟨none, none, none, 0⟩) emptyDB ("t0")).2
      (by decide)⟩

end MemoryMcp
